import Mathlib

/-!
Verification of the aws-data-wrangler core against its specification.

Bytes are modelled as natural numbers and byte buffers as lists of
naturals.  Fallible operations return Option or Except values; a none or
error value models a raised exception.
-/

/-- Decidable equality of Except values, used to evaluate the fallible
operations of the model on concrete inputs. -/
instance instDecEqExcept {ε α : Type} [DecidableEq ε] [DecidableEq α] :
    DecidableEq (Except ε α) := fun x y =>
  match x, y with
  | .ok a, .ok b =>
      if h : a = b then .isTrue (congrArg Except.ok h)
      else .isFalse (fun hc => h (Except.ok.inj hc))
  | .error a, .error b =>
      if h : a = b then .isTrue (congrArg Except.error h)
      else .isFalse (fun hc => h (Except.error.inj hc))
  | .ok _, .error _ => .isFalse (fun hc => Except.noConfusion hc)
  | .error _, .ok _ => .isFalse (fun hc => Except.noConfusion hc)

namespace AwsWrangler

/-- A byte value. -/
abbrev Byte := Nat

/-- Byte content of an ASCII string, used to transcribe test buffers. -/
def strBytes (s : String) : List Byte :=
  s.toList.map Char.toNat

/-- The structural profile reported by the terminator profiler.
Absent fields are reported as index 0. -/
structure TerminatorProfile where
  last_terminator_suspect_index : Nat
  first_non_special_byte_index : Nat
  sep_counter : Nat
  quote_counter : Nat
deriving DecidableEq, Repr

namespace Pandas

/-- Modelled from the spec: the backward scan of the TerminatorProfiler
(the Pandas class itself is absent from the sources; only its tests are
present).  The scan inspects indices start-1 down to 0.  Before any
terminator byte is seen the state is none; after one is seen the state
holds the suspect index and the separator and quote counters, which are
reset whenever a new terminator byte is found.  The scan stops at the
first plain byte found after a suspect. -/
def scanProfile (body : List Byte) (sep quote term : Byte) :
    Nat → Option (Nat × Nat × Nat) → TerminatorProfile
  | 0, none => ⟨0, 0, 0, 0⟩
  | 0, some (susp, sc, qc) => ⟨susp, 0, sc, qc⟩
  | n + 1, none =>
      if body.getD n 0 = term then
        scanProfile body sep quote term n (some (n, 0, 0))
      else
        scanProfile body sep quote term n none
  | n + 1, some (susp, sc, qc) =>
      let b := body.getD n 0
      if b = term then
        scanProfile body sep quote term n (some (n, 0, 0))
      else if b = quote then
        scanProfile body sep quote term n (some (susp, sc, qc + 1))
      else if b = sep then
        scanProfile body sep quote term n (some (susp, sc + 1, qc))
      else
        ⟨susp, n, sc, qc⟩

/-- Modelled from the spec: TerminatorProfiler
(Pandas._extract_terminator_profile).  A total, pure scan; when the
anchor last_index is absent the scan starts at the final position of the
buffer, and an absent special byte yields index 0 for that field. -/
def extract_terminator_profile (body : List Byte) (sep quote term : Byte)
    (last_index : Option Nat) : TerminatorProfile :=
  scanProfile body sep quote term (last_index.getD body.length) none

/-- The two quoting disciplines supported by the boundary resolver. -/
inductive Quoting where
  | QUOTE_MINIMAL
  | QUOTE_ALL
deriving DecidableEq, Repr

/-- Number of quote bytes in a buffer. -/
def quoteCount (quote : Byte) (l : List Byte) : Nat :=
  (l.filter (fun b => b == quote)).length

/-- Modelled from the spec: the MINIMAL-discipline scan of
BoundaryResolver.  Scanning from the right, it returns the rightmost
index holding a terminator byte whose preceding quote parity is even;
the argument n is the number of positions still to inspect. -/
def findMinimalLoop (body : List Byte) (quote term : Byte) : Nat → Option Nat
  | 0 => none
  | i + 1 =>
      if body.getD i 0 = term ∧ quoteCount quote (body.take i) % 2 = 0 then
        some i
      else
        findMinimalLoop body quote term i

/-- Modelled from the spec: the ALL-discipline scan of BoundaryResolver.
Repeatedly profiles the buffer below the current anchor; a suspect whose
quote counter is odd (a closed quoted field lies between the suspect and
the following plain token) is the answer, any other suspect becomes the
next anchor.  A missing suspect or a missing plain byte means no valid
split exists.  The fuel argument bounds the number of profile rounds;
each round strictly lowers the anchor, so body.length + 1 rounds always
suffice. -/
def findAllLoop (body : List Byte) (sep quote term : Byte) :
    Nat → Nat → Option Nat
  | 0, _ => none
  | fuel + 1, start =>
      let p := scanProfile body sep quote term start none
      if p.last_terminator_suspect_index ≠ 0 ∧
          p.first_non_special_byte_index ≠ 0 then
        if p.quote_counter % 2 = 1 then
          some p.last_terminator_suspect_index
        else
          findAllLoop body sep quote term fuel p.last_terminator_suspect_index
      else
        none

/-- Modelled from the spec: BoundaryResolver (Pandas._find_terminator).
Returns the byte index of the rightmost valid, quote-safe record
terminator, or none when no valid split exists (the
LineTerminatorNotFound condition). -/
def find_terminator (body : List Byte) (sep : Byte) (quoting : Quoting)
    (quote term : Byte) : Option Nat :=
  match quoting with
  | .QUOTE_MINIMAL => findMinimalLoop body quote term body.length
  | .QUOTE_ALL => findAllLoop body sep quote term (body.length + 1) body.length

/-- Modelled from the spec: the row splitter underlying BatchDecoder.
A buffer is cut after every terminator byte lying at even quote parity;
a trailing unterminated remainder forms a final row.  The parity flag is
true inside an open quoted field; acc accumulates the current row in
reverse. -/
def splitRowsAux (quote term : Byte) :
    List Byte → Bool → List Byte → List (List Byte)
  | [], _, acc => if acc.isEmpty then [] else [acc.reverse]
  | b :: rest, par, acc =>
      if b = term ∧ par = false then
        (acc.reverse ++ [b]) :: splitRowsAux quote term rest par []
      else if b = quote then
        splitRowsAux quote term rest (!par) (b :: acc)
      else
        splitRowsAux quote term rest par (b :: acc)

/-- Modelled from the spec: the rows of a buffer, each row carrying its
terminator byte. -/
def splitRows (quote term : Byte) (l : List Byte) : List (List Byte) :=
  splitRowsAux quote term l false []

/-- Modelled from the spec: the cell splitter of BatchDecoder.  A row is
cut at every separator byte lying at even quote parity; cells are the
raw byte strings between separators. -/
def splitCellsAux (quote sep : Byte) :
    List Byte → Bool → List Byte → List (List Byte)
  | [], _, acc => [acc.reverse]
  | b :: rest, par, acc =>
      if b = sep ∧ par = false then
        acc.reverse :: splitCellsAux quote sep rest par []
      else if b = quote then
        splitCellsAux quote sep rest (!par) (b :: acc)
      else
        splitCellsAux quote sep rest par (b :: acc)

/-- Modelled from the spec: decoding of one row into its raw cells; the
trailing terminator byte of the row is not part of any cell. -/
def parseRecord (sep quote term : Byte) (row : List Byte) :
    List (List Byte) :=
  let trimmed := if row.getLast? = some term then row.dropLast else row
  splitCellsAux quote sep trimmed false []

/-- Modelled from the spec: BatchDecoder.  A quote-safe chunk becomes an
ordered sequence of rows of raw cell byte strings. -/
def decodeBatch (sep quote term : Byte) (chunk : List Byte) :
    List (List (List Byte)) :=
  (splitRows quote term chunk).map (parseRecord sep quote term)

/-- Modelled from the spec: ChunkedRangeReader over an abstract
boundary resolver.  A window of budget bytes is taken from the
remainder; if the remainder fits inside the budget it is the final range
and passes through untrimmed, otherwise the resolver trims the window to
a whole-record prefix which is yielded, the rest being carried forward.
A failed resolution doubles the window.  The fuel argument bounds the
number of steps; exhaustion models the fatal ChunkTooLarge condition. -/
def chunkedRead (resolver : List Byte → Option Nat) :
    Nat → List Byte → Nat → Option (List (List Byte))
  | 0, _, _ => none
  | fuel + 1, remaining, budget =>
      if remaining.length ≤ budget then
        some [remaining]
      else
        match resolver (remaining.take budget) with
        | some idx =>
            (chunkedRead resolver fuel (remaining.drop (idx + 1)) budget).map
              (fun cs => (remaining.take budget).take (idx + 1) :: cs)
        | none => chunkedRead resolver fuel remaining (budget * 2)

/-- Modelled from the spec: the exposed read path, a ChunkedRangeReader
driven by the MINIMAL-discipline BoundaryResolver. -/
def readObject (sep quote term : Byte) (fuel : Nat) (body : List Byte)
    (budget : Nat) : Option (List (List Byte)) :=
  chunkedRead (fun w => find_terminator w sep .QUOTE_MINIMAL quote term)
    fuel body budget

/-- Quote-parity transition of a scan across a buffer. -/
def parAfter (quote : Byte) (par : Bool) (l : List Byte) : Bool :=
  l.foldl (fun p b => if b = quote then !p else p) par

end Pandas

/-- Row-count threshold under which a single partition is used, from
spark.py. -/
def MIN_NUMBER_OF_ROWS_TO_DISTRIBUTE : Nat := 1000

namespace Spark

/-- The MissingBatchDetected condition of Spark.to_redshift, carrying
the number of files actually returned and the number of partitions
expected. -/
structure MissingBatchDetected where
  num_files_returned : Nat
  num_partitions_expected : Nat
deriving DecidableEq, Repr

/-- The partition growth loop of Spark.to_redshift: starting from the
slice count, the partition count grows by the slice count until it
reaches min_num_partitions.  The fuel argument makes the loop total; a
none result models divergence, which a positive slice count rules out
for fuel at least min_num_partitions. -/
def grow_partitions (num_slices min_num_partitions : Nat) :
    Nat → Nat → Option Nat
  | 0, np => if np < min_num_partitions then none else some np
  | fuel + 1, np =>
      if np < min_num_partitions then
        grow_partitions num_slices min_num_partitions fuel (np + num_slices)
      else
        some np

/-- The partition-count policy of Spark.to_redshift: one partition below
the distribution threshold, otherwise the growth loop starting from the
Redshift slice count. -/
def number_of_partitions (num_rows num_slices min_num_partitions : Nat) :
    Option Nat :=
  if num_rows < MIN_NUMBER_OF_ROWS_TO_DISTRIBUTE then
    some 1
  else
    grow_partitions num_slices min_num_partitions min_num_partitions num_slices

/-- The write reconciliation of Spark.to_redshift: the collected output
object paths are returned only when their number equals the number of
dispatched partitions; otherwise the MissingBatchDetected condition
carrying both counts is raised, with no retry. -/
def to_redshift_reconcile (num_partitions : Nat)
    (objects_paths : List String) :
    Except MissingBatchDetected (List String) :=
  if objects_paths.length ≠ num_partitions then
    .error ⟨objects_paths.length, num_partitions⟩
  else
    .ok objects_paths

end Spark

namespace Glue

/-- The in-memory column classes produced by Glue.type_athena2python,
one value per Python class the source can return. -/
inductive PyClass where
  | pyInt
  | pyFloat
  | pyBool
  | pyStr
  | pyDatetime
  | pyDate
deriving DecidableEq, Repr

/-- The text produced by the Python str function on each class value,
as compared against by Glue.type_python2athena. -/
def pyClassStr : PyClass → String
  | .pyInt => "<class \x27int\x27>"
  | .pyFloat => "<class \x27float\x27>"
  | .pyBool => "<class \x27bool\x27>"
  | .pyStr => "<class \x27str\x27>"
  | .pyDatetime => "<class \x27datetime.datetime\x27>"
  | .pyDate => "<class \x27datetime.date\x27>"

/-- ASCII lowercasing of a type name, as the Python lower method does
on the catalog type names handled here. -/
def lowerName (s : String) : String :=
  String.mk (s.data.map (fun c =>
    if 65 ≤ c.toNat ∧ c.toNat ≤ 90 then Char.ofNat (c.toNat + 32) else c))

/-- Glue.type_athena2python: catalog type name to Python class, raising
UnsupportedType on anything unknown. -/
def type_athena2python (dtype : String) : Except String PyClass :=
  let d := lowerName dtype
  if d ∈ ["int", "integer", "bigint", "smallint", "tinyint"] then
    .ok .pyInt
  else if d ∈ ["float", "double", "real"] then
    .ok .pyFloat
  else if d = "boolean" then
    .ok .pyBool
  else if d ∈ ["string", "char", "varchar", "array", "row", "map"] then
    .ok .pyStr
  else if d = "timestamp" then
    .ok .pyDatetime
  else if d = "date" then
    .ok .pyDate
  else
    .error ("Unsupported Athena type: " ++ d)

/-- Glue.type_python2athena: Python class to catalog type name,
comparing the printed class text against string literals; the boolean
case compares against a misspelled literal, boll instead of bool. -/
def type_python2athena (python_type : PyClass) : Except String String :=
  let s := pyClassStr python_type
  if s = "<class \x27int\x27>" then
    .ok "bigint"
  else if s = "<class \x27float\x27>" then
    .ok "double"
  else if s = "<class \x27boll\x27>" then
    .ok "boolean"
  else if s = "<class \x27str\x27>" then
    .ok "string"
  else if s = "<class \x27datetime.datetime\x27>" then
    .ok "timestamp"
  else if s = "<class \x27datetime.date\x27>" then
    .ok "date"
  else
    .error ("Unsupported Python type: " ++ s)

/-- The catalog type-name round trip through the two conversions. -/
def typeRoundTrip (dtype : String) : Except String String :=
  match type_athena2python dtype with
  | .ok c => type_python2athena c
  | .error e => .error e

/-- One entry of the Errors list of a batch_create_partition response;
a missing ErrorDetail or ErrorCode key is modelled as a missing code. -/
structure BatchError where
  error_code : Option String
deriving DecidableEq, Repr

/-- Whether an entry of the Errors list makes Glue.add_partitions raise
ApiError: a present ErrorCode different from AlreadyExistsException. -/
def errorFatal (e : BatchError) : Bool :=
  match e.error_code with
  | some c => c ≠ "AlreadyExistsException"
  | none => false

/-- The number of batch_create_partition pages for a given number of
partition definitions, the ceiling of the count over 100 as computed in
Glue.add_partitions. -/
def pagesNum (n : Nat) : Nat := (n + 99) / 100

/-- The first n pages of at most 100 partition definitions each, taken
from the front of the list as Glue.add_partitions does. -/
def chunksGo {α : Type} : Nat → List α → List (List α)
  | 0, _ => []
  | n + 1, parts => parts.take 100 :: chunksGo n (parts.drop 100)

/-- The successive pages of at most 100 partition definitions submitted
by Glue.add_partitions. -/
def chunksOf100 {α : Type} (l : List α) : List (List α) :=
  chunksGo (pagesNum l.length) l

/-- The body of the paging loop of Glue.add_partitions, running a fixed
number of pages as the source does: each page of at most 100
definitions is submitted through the abstract service call, the first
fatal entry of a response raises ApiError, and on success the number of
service calls made is returned. -/
def add_partitions_go {α : Type} (batch : List α → List BatchError) :
    Nat → List α → Except BatchError Nat
  | 0, _ => .ok 0
  | n + 1, parts =>
      match (batch (parts.take 100)).find? errorFatal with
      | some e => .error e
      | none =>
          match add_partitions_go batch n (parts.drop 100) with
          | .ok m => .ok (m + 1)
          | .error e => .error e

/-- Glue.add_partitions over an abstract service call: an empty
partition list returns at once with no service call; otherwise the
paging loop runs over the ceiling of the count over 100 pages.  The ok
value counts the service calls made. -/
def add_partitions {α : Type} (batch : List α → List BatchError)
    (partition_paths : List α) : Except BatchError Nat :=
  if partition_paths.isEmpty then
    .ok 0
  else
    add_partitions_go batch (pagesNum partition_paths.length) partition_paths

end Glue

namespace Athena

/-- The state and state change reason of a get_query_execution
response. -/
structure QueryExecutionStatus where
  state : String
  state_change_reason : Option String
deriving DecidableEq, Repr

/-- The final query states of Athena.wait_query. -/
def final_states : List String := ["FAILED", "SUCCEEDED", "CANCELLED"]

/-- The outcome of Athena.wait_query: the QueryFailed condition, the
QueryCancelled condition, or the final response returned. -/
inductive WaitQueryResult where
  | query_failed (reason : Option String)
  | query_cancelled (reason : Option String)
  | returned (response : QueryExecutionStatus)
deriving DecidableEq, Repr

/-- The polling loop of Athena.wait_query over an abstract sequence of
get_query_execution responses: the first response whose state is final.
The fuel argument makes polling total; none models a query that never
reaches a final state within fuel polls. -/
def wait_query_loop (poll : Nat → QueryExecutionStatus) :
    Nat → Nat → Option QueryExecutionStatus
  | 0, _ => none
  | fuel + 1, k =>
      if (poll k).state ∈ final_states then
        some (poll k)
      else
        wait_query_loop poll fuel (k + 1)

/-- Athena.wait_query: poll until a final state, then raise QueryFailed
on FAILED, QueryCancelled on CANCELLED, and return the response
otherwise. -/
def wait_query (poll : Nat → QueryExecutionStatus) (fuel : Nat) :
    Option WaitQueryResult :=
  match wait_query_loop poll fuel 0 with
  | none => none
  | some st =>
      if st.state = "FAILED" then
        some (.query_failed st.state_change_reason)
      else if st.state = "CANCELLED" then
        some (.query_cancelled st.state_change_reason)
      else
        some (.returned st)

end Athena

end AwsWrangler

namespace AwsWrangler

/-- The boundary resolver model agrees with every reference fixture of
test_find_terminator: the thirteen buffers of the test table resolve to
the indices the reference behavior pins down. -/
theorem find_terminator_reference_fixtures :
    Pandas.find_terminator (strBytes "012\njawdnkjawnd") 44 .QUOTE_MINIMAL 34
      10 = some 3 ∧
    Pandas.find_terminator (strBytes "012\n456\njawdnkjawnd") 44
      .QUOTE_MINIMAL 34 10 = some 7 ∧
    Pandas.find_terminator (strBytes "012\",\n\"foo") 44 .QUOTE_ALL 34 10 =
      some 5 ∧
    Pandas.find_terminator (strBytes "012\",\n") 44 .QUOTE_ALL 34 10 =
      some 5 ∧
    Pandas.find_terminator (strBytes "012\",\n\"012,\n") 44 .QUOTE_ALL 34 10 =
      some 5 ∧
    Pandas.find_terminator (strBytes "012\",\n,,,,,,,,\"012,\n") 44 .QUOTE_ALL
      34 10 = some 5 ∧
    Pandas.find_terminator (strBytes "012\",,,,\n\"012,\n") 44 .QUOTE_ALL 34
      10 = some 8 ∧
    Pandas.find_terminator (strBytes "012\",,,,\n,,,,,,\"\"012,\n") 44
      .QUOTE_ALL 34 10 = some 8 ∧
    Pandas.find_terminator (strBytes "012\",,,,\n,,,,,,\"\"012\"\n,") 44
      .QUOTE_ALL 34 10 = some 21 ∧
    Pandas.find_terminator (strBytes "012\",,,,\n,,,,,,\"\"01\"2\"\"\n,\"a") 44
      .QUOTE_ALL 34 10 = some 8 ∧
    Pandas.find_terminator (strBytes "\"foo\",\"boo\"\n\"\n\",\"bar\"") 44
      .QUOTE_ALL 34 10 = some 11 ∧
    Pandas.find_terminator
      (strBytes "\"foo\"\n\"boo\",\"\n\",\"\n\",\"\n\",\"\n\",\"\n\",,,,,,\"\n\",,,,")
      44 .QUOTE_ALL 34 10 = some 5 ∧
    Pandas.find_terminator (strBytes "012\",\n\"foo\",\"\n\n\n\n\",\"\n") 44
      .QUOTE_ALL 34 10 = some 5 := by
  decide

/-- Characterization of the MINIMAL-discipline scan: a returned index is
the rightmost inspected position holding a terminator byte at even
preceding quote parity. -/
theorem findMinimalLoop_some (body : List Byte) (quote term : Byte) :
    ∀ n i, Pandas.findMinimalLoop body quote term n = some i →
      i < n ∧ body.getD i 0 = term ∧
      Pandas.quoteCount quote (body.take i) % 2 = 0 ∧
      ∀ j, i < j → j < n →
        ¬(body.getD j 0 = term ∧
          Pandas.quoteCount quote (body.take j) % 2 = 0) := by
  intro n
  induction n with
  | zero =>
      intro i h
      simp [Pandas.findMinimalLoop] at h
  | succ m ih =>
      intro i h
      rw [Pandas.findMinimalLoop] at h
      by_cases hc : body.getD m 0 = term ∧
          Pandas.quoteCount quote (body.take m) % 2 = 0
      · rw [if_pos hc] at h
        obtain rfl : m = i := Option.some.inj h
        exact ⟨Nat.lt_succ_self m, hc.1, hc.2, fun j hj1 hj2 => by omega⟩
      · rw [if_neg hc] at h
        obtain ⟨h1, h2, h3, h4⟩ := ih i h
        refine ⟨Nat.lt_succ_of_lt h1, h2, h3, fun j hj1 hj2 => ?_⟩
        rcases (by omega : j < m ∨ j = m) with hj | rfl
        · exact h4 j hj1 hj
        · exact hc

end AwsWrangler

open AwsWrangler in
/-- C1.  Write reconciliation of Spark.to_redshift: the
MissingBatchDetected condition carrying the actual file count and the
expected partition count is raised exactly when the two counts differ,
every successful call returns exactly as many paths as partitions were
dispatched, and dispatching 5 partitions with only 4 reported paths
raises the condition with actual 4 and expected 5. -/
theorem c1_write_reconciliation :
    (∀ (num_partitions : Nat) (objects_paths : List String),
        ((∃ e, Spark.to_redshift_reconcile num_partitions objects_paths =
              .error e ∧
            e.num_files_returned = objects_paths.length ∧
            e.num_partitions_expected = num_partitions) ↔
          objects_paths.length ≠ num_partitions) ∧
        (∀ res, Spark.to_redshift_reconcile num_partitions objects_paths =
            .ok res → res.length = num_partitions)) ∧
    Spark.to_redshift_reconcile 5 ["p0", "p1", "p2", "p3"] =
      .error ⟨4, 5⟩ := by
  constructor
  · intro np paths
    constructor
    · constructor
      · rintro ⟨e, he, _, _⟩
        intro heq
        rw [Spark.to_redshift_reconcile, if_neg (not_not_intro heq)] at he
        exact Except.noConfusion he
      · intro hne
        exact ⟨⟨paths.length, np⟩,
          by rw [Spark.to_redshift_reconcile, if_pos hne], rfl, rfl⟩
    · intro res hres
      rw [Spark.to_redshift_reconcile] at hres
      by_cases h : paths.length ≠ np
      · rw [if_pos h] at hres
        exact Except.noConfusion hres
      · rw [if_neg h] at hres
        obtain rfl := Except.ok.inj hres
        exact not_ne_iff.mp h
  · decide

open AwsWrangler in
/-- C1 witness: a successful reconciliation of two paths against two
partitions returns a list of length two. -/
theorem c1_write_reconciliation_witness : (["a", "b"] : List String).length = 2 :=
  (c1_write_reconciliation.1 2 ["a", "b"]).2 ["a", "b"] (by decide)

namespace AwsWrangler

/-- The growth loop of the partition count reaches the first value of
the form start plus a multiple of the slice count that is at least the
requested minimum, given enough fuel. -/
theorem grow_partitions_spec (num_slices min_num : Nat) :
    ∀ fuel np, min_num ≤ np + fuel * num_slices →
      ∃ k, Spark.grow_partitions num_slices min_num fuel np =
          some (np + k * num_slices) ∧
        min_num ≤ np + k * num_slices ∧
        ∀ j, j < k → np + j * num_slices < min_num := by
  intro fuel
  induction fuel with
  | zero =>
      intro np h
      rw [Nat.zero_mul] at h
      refine ⟨0, ?_, by omega, by omega⟩
      rw [Spark.grow_partitions, if_neg (by omega)]
      simp
  | succ m ih =>
      intro np h
      rw [Spark.grow_partitions]
      by_cases hlt : np < min_num
      · rw [if_pos hlt]
        rw [Nat.succ_mul] at h
        obtain ⟨k, hk1, hk2, hk3⟩ := ih (np + num_slices) (by omega)
        refine ⟨k + 1, ?_, ?_, ?_⟩
        · rw [hk1, Nat.succ_mul]
          congr 1
          omega
        · rw [Nat.succ_mul]
          omega
        · intro j hj
          match j with
          | 0 => rw [Nat.zero_mul]; omega
          | j0 + 1 =>
              have := hk3 j0 (by omega)
              rw [Nat.succ_mul]
              omega
      · rw [if_neg hlt]
        exact ⟨0, by simp, by omega, by omega⟩

end AwsWrangler

open AwsWrangler in
/-- C5.  Partition-count policy of Spark.to_redshift: below the
threshold of MIN_NUMBER_OF_ROWS_TO_DISTRIBUTE rows exactly one
partition is used; at or above it, the count is the smallest positive
multiple of the Redshift slice count reaching min_num_partitions, hence
at least the requested degree of parallelism, provided the slice count
is at least 1.  Partition counts are counts of dispatched work, so the
multiples considered are positive. -/
theorem c5_partition_count_policy (num_rows num_slices min_num_partitions : Nat)
    (hs : 1 ≤ num_slices) :
    (num_rows < MIN_NUMBER_OF_ROWS_TO_DISTRIBUTE →
        Spark.number_of_partitions num_rows num_slices min_num_partitions =
          some 1) ∧
    (MIN_NUMBER_OF_ROWS_TO_DISTRIBUTE ≤ num_rows →
        ∃ np, Spark.number_of_partitions num_rows num_slices
            min_num_partitions = some np ∧
          num_slices ∣ np ∧ 0 < np ∧ min_num_partitions ≤ np ∧
          ∀ m, 0 < m → num_slices ∣ m → min_num_partitions ≤ m → np ≤ m) := by
  constructor
  · intro h
    rw [Spark.number_of_partitions, if_pos h]
  · intro h
    rw [Spark.number_of_partitions, if_neg (by omega)]
    have hfuel : min_num_partitions ≤
        num_slices + min_num_partitions * num_slices := by
      have h1 : min_num_partitions * 1 ≤ min_num_partitions * num_slices :=
        Nat.mul_le_mul_left _ hs
      omega
    obtain ⟨k, hk1, hk2, hk3⟩ := grow_partitions_spec num_slices
      min_num_partitions min_num_partitions num_slices hfuel
    refine ⟨num_slices + k * num_slices, hk1, ⟨k + 1, by ring⟩, by omega,
      hk2, ?_⟩
    intro m hm hdvd hge
    obtain ⟨t, rfl⟩ := hdvd
    match t with
    | 0 => rw [Nat.mul_zero] at hm; omega
    | t0 + 1 =>
        by_contra hcon
        rw [Nat.mul_succ] at hcon hge hm
        have hlt : num_slices * t0 + num_slices <
            num_slices + k * num_slices := by omega
        have ht0 : t0 < k := by
          have : num_slices * t0 < num_slices * k := by
            rw [Nat.mul_comm num_slices k]
            omega
          exact Nat.lt_of_mul_lt_mul_left this
        have := hk3 t0 ht0
        rw [Nat.mul_comm t0 num_slices] at this
        omega

open AwsWrangler in
/-- C5 witness: a table of 500 rows, two slices and a requested minimum
of 200 partitions uses exactly one partition. -/
theorem c5_partition_count_policy_witness :
    Spark.number_of_partitions 500 2 200 = some 1 :=
  (c5_partition_count_policy 500 2 200 (by decide)).1 (by decide)

open AwsWrangler in
/-- C8.  The catalog type-name round trip holds for bigint, double,
string, timestamp and date, but fails for boolean: type_athena2python
maps boolean to the Python bool class, while type_python2athena
compares against the misspelled literal boll and therefore raises
UnsupportedType on the bool class. -/
theorem c8_type_roundtrip_boolean_gap :
    Glue.typeRoundTrip "bigint" = .ok "bigint" ∧
    Glue.typeRoundTrip "double" = .ok "double" ∧
    Glue.typeRoundTrip "string" = .ok "string" ∧
    Glue.typeRoundTrip "timestamp" = .ok "timestamp" ∧
    Glue.typeRoundTrip "date" = .ok "date" ∧
    Glue.type_athena2python "boolean" = .ok Glue.PyClass.pyBool ∧
    Glue.typeRoundTrip "boolean" =
      .error "Unsupported Python type: <class \x27bool\x27>" := by
  decide

open AwsWrangler in
/-- C2.  MINIMAL-discipline BoundaryResolver: a returned index is the
rightmost terminator byte whose preceding quote parity is even, so
everything before it is a whole number of complete records; on the two
reference buffers it returns 3 and 7. -/
theorem c2_minimal_rightmost_even_terminator :
    (∀ (body : List Byte) (sep quote term : Byte) (i : Nat),
        Pandas.find_terminator body sep .QUOTE_MINIMAL quote term = some i →
        i < body.length ∧ body.getD i 0 = term ∧
        Pandas.quoteCount quote (body.take i) % 2 = 0 ∧
        ∀ j, i < j → j < body.length →
          ¬(body.getD j 0 = term ∧
            Pandas.quoteCount quote (body.take j) % 2 = 0)) ∧
    Pandas.find_terminator (strBytes "012\njawdnkjawnd") 44 .QUOTE_MINIMAL 34
      10 = some 3 ∧
    Pandas.find_terminator (strBytes "012\n456\njawdnkjawnd") 44 .QUOTE_MINIMAL
      34 10 = some 7 := by
  refine ⟨?_, by decide, by decide⟩
  intro body sep quote term i h
  exact findMinimalLoop_some body quote term body.length i h

open AwsWrangler in
/-- C2 witness: on the first reference buffer the resolved index 3 lies
inside the buffer, holds the terminator byte, and has even preceding
quote parity. -/
theorem c2_minimal_rightmost_even_terminator_witness :
    3 < (strBytes "012\njawdnkjawnd").length ∧
      (strBytes "012\njawdnkjawnd").getD 3 0 = 10 ∧
      Pandas.quoteCount 34 ((strBytes "012\njawdnkjawnd").take 3) % 2 = 0 := by
  obtain ⟨h1, h2, h3, _⟩ := c2_minimal_rightmost_even_terminator.1
    (strBytes "012\njawdnkjawnd") 44 34 10 3 (by decide)
  exact ⟨h1, h2, h3⟩

open AwsWrangler in
/-- C3.  ALL-discipline BoundaryResolver: terminators inside an open
quoted field are skipped and doubled quote pairs do not close a field;
the reference buffer resolves to index 5, and the further fixtures
exercise skipped quoted terminators and doubled quotes. -/
theorem c3_all_discipline_quote_safety :
    Pandas.find_terminator (strBytes "012\",\n\"foo") 44 .QUOTE_ALL 34 10 =
      some 5 ∧
    Pandas.find_terminator (strBytes "012\",\n\"012,\n") 44 .QUOTE_ALL 34 10 =
      some 5 ∧
    Pandas.find_terminator (strBytes "012\",\n,,,,,,,,\"012,\n") 44 .QUOTE_ALL
      34 10 = some 5 ∧
    Pandas.find_terminator (strBytes "012\",,,,\n,,,,,,\"\"012,\n") 44
      .QUOTE_ALL 34 10 = some 8 ∧
    Pandas.find_terminator (strBytes "012\",,,,\n,,,,,,\"\"01\"2\"\"\n,\"a") 44
      .QUOTE_ALL 34 10 = some 8 ∧
    Pandas.find_terminator (strBytes "\"foo\",\"boo\"\n\"\n\",\"bar\"") 44
      .QUOTE_ALL 34 10 = some 11 ∧
    Pandas.find_terminator (strBytes "012\",\n\"foo\",\"\n\n\n\n\",\"\n") 44
      .QUOTE_ALL 34 10 = some 5 := by
  decide

namespace AwsWrangler

/-- A profile scan over a buffer holding no terminator byte finds no
suspect and reports the all-zero profile. -/
theorem scanProfile_no_term (body : List Byte) (sep quote term : Byte)
    (hno : ∀ b ∈ body, b ≠ term) :
    ∀ n, n ≤ body.length →
      Pandas.scanProfile body sep quote term n none = ⟨0, 0, 0, 0⟩ := by
  intro n
  induction n with
  | zero => intro _; rfl
  | succ m ih =>
      intro hm
      have hmem : body.getD m 0 ∈ body := by
        rw [List.getD_eq_getElem body 0 (by omega)]
        exact List.getElem_mem _
      rw [Pandas.scanProfile, if_neg (hno _ hmem)]
      exact ih (by omega)

/-- The MINIMAL-discipline scan over a buffer holding no terminator
byte fails. -/
theorem findMinimalLoop_no_term (body : List Byte) (quote term : Byte)
    (hno : ∀ b ∈ body, b ≠ term) :
    ∀ n, n ≤ body.length →
      Pandas.findMinimalLoop body quote term n = none := by
  intro n
  induction n with
  | zero => intro _; rfl
  | succ m ih =>
      intro hm
      have hmem : body.getD m 0 ∈ body := by
        rw [List.getD_eq_getElem body 0 (by omega)]
        exact List.getElem_mem _
      rw [Pandas.findMinimalLoop,
        if_neg (fun hc => hno _ hmem hc.1)]
      exact ih (by omega)

end AwsWrangler

open AwsWrangler in
/-- C4.  BoundaryResolver failure: a buffer with no terminator byte at
all fails under both disciplines, and the reference buffers whose only
terminators are enclosed in quotes fail under the ALL discipline; the
reference no-terminator buffer fails under both disciplines. -/
theorem c4_terminator_not_found :
    (∀ (body : List Byte) (sep quote term : Byte),
        (∀ b ∈ body, b ≠ term) →
        Pandas.find_terminator body sep .QUOTE_MINIMAL quote term = none ∧
        Pandas.find_terminator body sep .QUOTE_ALL quote term = none) ∧
    Pandas.find_terminator (strBytes "jawdnkjawnd") 44 .QUOTE_MINIMAL 34 10 =
      none ∧
    Pandas.find_terminator (strBytes "jawdnkjawnd") 44 .QUOTE_ALL 34 10 =
      none ∧
    Pandas.find_terminator (strBytes "jawdnkj\nawnd") 44 .QUOTE_ALL 34 10 =
      none ∧
    Pandas.find_terminator (strBytes "jawdnkj\"x\n\n\"awnd") 44 .QUOTE_ALL 34
      10 = none ∧
    Pandas.find_terminator (strBytes "jawdnkj\"\"\n,,,,,,,,,,awnd") 44
      .QUOTE_ALL 34 10 = none ∧
    Pandas.find_terminator (strBytes "jawdnkj,\"\"\"\"\"\"\nawnd") 44 .QUOTE_ALL
      34 10 = none := by
  refine ⟨?_, by decide, by decide, by decide, by decide, by decide, by decide⟩
  intro body sep quote term hno
  constructor
  · exact findMinimalLoop_no_term body quote term hno body.length (le_refl _)
  · have hp := scanProfile_no_term body sep quote term hno body.length
      (le_refl _)
    show Pandas.findAllLoop body sep quote term (body.length + 1)
      body.length = none
    rw [Pandas.findAllLoop]
    simp [hp]

open AwsWrangler in
/-- C4 witness: a two-byte buffer without the terminator byte makes the
resolver fail under both disciplines. -/
theorem c4_terminator_not_found_witness :
    Pandas.find_terminator [65, 66] 44 .QUOTE_MINIMAL 34 10 = none ∧
      Pandas.find_terminator [65, 66] 44 .QUOTE_ALL 34 10 = none :=
  c4_terminator_not_found.1 [65, 66] 44 34 10 (by decide)

open AwsWrangler in
/-- C6.  TerminatorProfiler: a total, pure scan reporting index 0 for
an absent special byte; the reference buffer yields suspect index 11,
first plain byte index 9, separator count 0 and quote count 1, and the
further fixtures pin the other reference profiles. -/
theorem c6_terminator_profile :
    (∀ (body : List Byte) (sep quote term : Byte) (last_index : Option Nat),
        ∃ p, Pandas.extract_terminator_profile body sep quote term
          last_index = p) ∧
    Pandas.extract_terminator_profile (strBytes "\"foo\",\"boo\"\n") 44 34 10
      none = ⟨11, 9, 0, 1⟩ ∧
    Pandas.extract_terminator_profile (strBytes "\"foo\",\"boo\"\n\"bar") 44 34
      10 none = ⟨11, 9, 0, 1⟩ ∧
    Pandas.extract_terminator_profile (strBytes "!foo!;!boo!@") 59 33 64 none =
      ⟨11, 9, 0, 1⟩ ∧
    Pandas.extract_terminator_profile (strBytes "\"foo\",\"boo\"\n\"bar\n") 44 34
      10 (some 16) = ⟨11, 9, 0, 1⟩ ∧
    Pandas.extract_terminator_profile (strBytes "abc") 44 34 10 none =
      ⟨0, 0, 0, 0⟩ := by
  exact ⟨fun body sep quote term li => ⟨_, rfl⟩, by decide, by decide,
    by decide, by decide, by decide⟩

namespace AwsWrangler

/-- A successful paging loop makes exactly as many service calls as it
was given pages to run. -/
theorem add_partitions_go_ok {α : Type} (batch : List α → List Glue.BatchError) :
    ∀ n (parts : List α) m,
      Glue.add_partitions_go batch n parts = .ok m → m = n := by
  intro n
  induction n with
  | zero =>
      intro parts m h
      rw [Glue.add_partitions_go] at h
      exact (Except.ok.inj h).symm
  | succ k ih =>
      intro parts m h
      rw [Glue.add_partitions_go] at h
      cases hf : (batch (parts.take 100)).find? Glue.errorFatal with
      | some e =>
          rw [hf] at h
          exact Except.noConfusion h
      | none =>
          rw [hf] at h
          cases hr : Glue.add_partitions_go batch k (parts.drop 100) with
          | ok m2 =>
              rw [hr] at h
              obtain rfl := Except.ok.inj h
              rw [ih _ _ hr]
          | error e =>
              rw [hr] at h
              exact Except.noConfusion h

/-- The paging loop raises ApiError exactly when some submitted page
draws a response holding a fatal error entry. -/
theorem add_partitions_go_error {α : Type}
    (batch : List α → List Glue.BatchError) :
    ∀ n (parts : List α),
      (∃ e, Glue.add_partitions_go batch n parts = .error e) ↔
        ∃ page ∈ Glue.chunksGo n parts, ∃ er ∈ batch page,
          Glue.errorFatal er = true := by
  intro n
  induction n with
  | zero =>
      intro parts
      constructor
      · rintro ⟨e, he⟩
        rw [Glue.add_partitions_go] at he
        exact Except.noConfusion he
      · rintro ⟨page, hp, _⟩
        simp [Glue.chunksGo] at hp
  | succ k ih =>
      intro parts
      rw [Glue.chunksGo]
      cases hf : (batch (parts.take 100)).find? Glue.errorFatal with
      | some e =>
          constructor
          · intro _
            exact ⟨parts.take 100, List.mem_cons_self _ _,
              e, List.mem_of_find?_eq_some hf, List.find?_some hf⟩
          · intro _
            refine ⟨e, ?_⟩
            rw [Glue.add_partitions_go, hf]
      | none =>
          have hclean : ∀ er ∈ batch (parts.take 100),
              ¬(Glue.errorFatal er = true) := by
            intro er her
            exact List.find?_eq_none.mp hf er her
          constructor
          · rintro ⟨e, he⟩
            rw [Glue.add_partitions_go, hf] at he
            cases hr : Glue.add_partitions_go batch k (parts.drop 100) with
            | ok m2 =>
                rw [hr] at he
                exact Except.noConfusion he
            | error e2 =>
                obtain ⟨page, hpage, hin⟩ := (ih (parts.drop 100)).mp ⟨e2, hr⟩
                exact ⟨page, List.mem_cons_of_mem _ hpage, hin⟩
          · rintro ⟨page, hpage, er, her, hfat⟩
            rcases List.mem_cons.mp hpage with rfl | htail
            · exact absurd hfat (hclean er her)
            · obtain ⟨e2, he2⟩ := (ih (parts.drop 100)).mpr
                ⟨page, htail, er, her, hfat⟩
              refine ⟨e2, ?_⟩
              rw [Glue.add_partitions_go, hf, he2]

/-- Every page produced by the paging layout holds at most 100
partition definitions. -/
theorem chunksGo_length_le {α : Type} :
    ∀ n (parts : List α), ∀ page ∈ Glue.chunksGo n parts,
      page.length ≤ 100 := by
  intro n
  induction n with
  | zero =>
      intro parts page hp
      simp [Glue.chunksGo] at hp
  | succ k ih =>
      intro parts page hp
      rw [Glue.chunksGo] at hp
      rcases List.mem_cons.mp hp with rfl | h
      · rw [List.length_take]
        omega
      · exact ih _ page h

end AwsWrangler

open AwsWrangler in
/-- C9.  Glue.add_partitions over an abstract batch_create_partition
call: an empty partition list returns with no service call; a
successful run makes exactly the ceiling of the count over 100 calls,
one per page of at most 100 definitions; ApiError is raised exactly
when some page draws a response entry whose error code is present and
differs from AlreadyExistsException. -/
theorem c9_add_partitions_paging {α : Type}
    (batch : List α → List Glue.BatchError) (partition_paths : List α) :
    (partition_paths = [] →
        Glue.add_partitions batch partition_paths = .ok 0) ∧
    (∀ n, Glue.add_partitions batch partition_paths = .ok n →
        n = Glue.pagesNum partition_paths.length) ∧
    ((∃ e, Glue.add_partitions batch partition_paths = .error e) ↔
      ∃ page ∈ Glue.chunksOf100 partition_paths, ∃ er ∈ batch page,
        Glue.errorFatal er = true) ∧
    (∀ page ∈ Glue.chunksOf100 partition_paths, page.length ≤ 100) := by
  by_cases hp : partition_paths.isEmpty
  · obtain rfl := List.isEmpty_iff.mp hp
    refine ⟨fun _ => rfl, ?_, ?_, ?_⟩
    · intro n h
      have hA : Glue.add_partitions batch ([] : List α) = .ok 0 := rfl
      rw [hA] at h
      obtain rfl := Except.ok.inj h
      show (0 : Nat) = Glue.pagesNum 0
      decide
    · constructor
      · rintro ⟨e, he⟩
        have hA : Glue.add_partitions batch ([] : List α) = .ok 0 := rfl
        rw [hA] at he
        exact Except.noConfusion he
      · rintro ⟨page, hpage, _⟩
        simp [Glue.chunksOf100, Glue.pagesNum, Glue.chunksGo] at hpage
    · intro page hpage
      simp [Glue.chunksOf100, Glue.pagesNum, Glue.chunksGo] at hpage
  · have hne : ¬partition_paths.isEmpty = true := hp
    refine ⟨?_, ?_, ?_, ?_⟩
    · intro h
      subst h
      exact absurd rfl hp
    · intro n h
      rw [Glue.add_partitions, if_neg hne] at h
      exact add_partitions_go_ok batch _ _ n h
    · rw [show (∃ e, Glue.add_partitions batch partition_paths = .error e) ↔
          (∃ e, Glue.add_partitions_go batch
            (Glue.pagesNum partition_paths.length) partition_paths =
              .error e) from by rw [Glue.add_partitions, if_neg hne]]
      exact add_partitions_go_error batch _ _
    · exact chunksGo_length_le _ _

open AwsWrangler in
/-- C9 witness: a three-element partition list against an error-free
service makes exactly one call, and an empty list returns at once. -/
theorem c9_add_partitions_paging_witness :
    Glue.add_partitions (fun _ => []) ([] : List Nat) = .ok 0 ∧
      (1 : Nat) = Glue.pagesNum ([1, 2, 3] : List Nat).length :=
  ⟨(c9_add_partitions_paging (fun _ => []) ([] : List Nat)).1 rfl,
   (c9_add_partitions_paging (fun _ => []) ([1, 2, 3] : List Nat)).2.1 1
     (by decide)⟩

namespace AwsWrangler

/-- A successful polling loop stops at the first response whose state
is final. -/
theorem wait_query_loop_some (poll : Nat → Athena.QueryExecutionStatus) :
    ∀ fuel start st, Athena.wait_query_loop poll fuel start = some st →
      ∃ k, start ≤ k ∧ st = poll k ∧
        (poll k).state ∈ Athena.final_states ∧
        ∀ j, start ≤ j → j < k → (poll j).state ∉ Athena.final_states := by
  intro fuel
  induction fuel with
  | zero =>
      intro start st h
      rw [Athena.wait_query_loop] at h
      exact Option.noConfusion h
  | succ m ih =>
      intro start st h
      rw [Athena.wait_query_loop] at h
      by_cases hf : (poll start).state ∈ Athena.final_states
      · rw [if_pos hf] at h
        exact ⟨start, le_refl _, (Option.some.inj h).symm, hf,
          fun j h1 h2 => absurd h1 (by omega)⟩
      · rw [if_neg hf] at h
        obtain ⟨k, hk1, hk2, hk3, hk4⟩ := ih (start + 1) st h
        refine ⟨k, by omega, hk2, hk3, fun j h1 h2 => ?_⟩
        rcases (by omega : j = start ∨ start + 1 ≤ j) with rfl | hj
        · exact hf
        · exact hk4 j hj h2

end AwsWrangler

open AwsWrangler in
/-- C10.  Athena.wait_query polls until the first final state among
FAILED, SUCCEEDED and CANCELLED, then raises QueryFailed carrying the
state change reason exactly when that state is FAILED, raises
QueryCancelled exactly when it is CANCELLED, and returns the final
response exactly when it is SUCCEEDED. -/
theorem c10_wait_query_outcomes (poll : Nat → Athena.QueryExecutionStatus)
    (fuel : Nat) (r : Athena.WaitQueryResult)
    (h : Athena.wait_query poll fuel = some r) :
    ∃ k, (poll k).state ∈ Athena.final_states ∧
      (∀ j, j < k → (poll j).state ∉ Athena.final_states) ∧
      (r = .query_failed (poll k).state_change_reason ↔
        (poll k).state = "FAILED") ∧
      (r = .query_cancelled (poll k).state_change_reason ↔
        (poll k).state = "CANCELLED") ∧
      (r = .returned (poll k) ↔ (poll k).state = "SUCCEEDED") := by
  rw [Athena.wait_query] at h
  cases hl : Athena.wait_query_loop poll fuel 0 with
  | none =>
      rw [hl] at h
      exact Option.noConfusion h
  | some st =>
      rw [hl] at h
      obtain ⟨k, _, hst, hfin, hk4⟩ := wait_query_loop_some poll fuel 0 st hl
      subst hst
      have hnot : ∀ j, j < k → (poll j).state ∉ Athena.final_states :=
        fun j hj => hk4 j (by omega) hj
      have h2 : (if (poll k).state = "FAILED" then
          some (Athena.WaitQueryResult.query_failed
            (poll k).state_change_reason)
        else if (poll k).state = "CANCELLED" then
          some (Athena.WaitQueryResult.query_cancelled
            (poll k).state_change_reason)
        else some (Athena.WaitQueryResult.returned (poll k))) = some r := h
      clear h
      by_cases hF : (poll k).state = "FAILED"
      · rw [if_pos hF] at h2
        obtain rfl := (Option.some.inj h2).symm
        refine ⟨k, hfin, hnot, ⟨fun _ => hF, fun _ => rfl⟩, ?_, ?_⟩
        · constructor
          · intro hc
            exact Athena.WaitQueryResult.noConfusion hc
          · intro hC
            rw [hF] at hC
            exact absurd hC (by decide)
        · constructor
          · intro hc
            exact Athena.WaitQueryResult.noConfusion hc
          · intro hS
            rw [hF] at hS
            exact absurd hS (by decide)
      · rw [if_neg hF] at h2
        by_cases hC : (poll k).state = "CANCELLED"
        · rw [if_pos hC] at h2
          obtain rfl := (Option.some.inj h2).symm
          refine ⟨k, hfin, hnot, ?_, ⟨fun _ => hC, fun _ => rfl⟩, ?_⟩
          · constructor
            · intro hc
              exact Athena.WaitQueryResult.noConfusion hc
            · intro hFe
              exact absurd hFe hF
          · constructor
            · intro hc
              exact Athena.WaitQueryResult.noConfusion hc
            · intro hS
              rw [hC] at hS
              exact absurd hS (by decide)
        · rw [if_neg hC] at h2
          obtain rfl := (Option.some.inj h2).symm
          have hS : (poll k).state = "SUCCEEDED" := by
            rcases (by simpa [Athena.final_states] using hfin :
                (poll k).state = "FAILED" ∨ (poll k).state = "SUCCEEDED" ∨
                  (poll k).state = "CANCELLED") with hx | hx | hx
            · exact absurd hx hF
            · exact hx
            · exact absurd hx hC
          refine ⟨k, hfin, hnot, ?_, ?_, ⟨fun _ => hS, fun _ => rfl⟩⟩
          · constructor
            · intro hc
              exact Athena.WaitQueryResult.noConfusion hc
            · intro hFe
              exact absurd hFe hF
          · constructor
            · intro hc
              exact Athena.WaitQueryResult.noConfusion hc
            · intro hCe
              exact absurd hCe hC

open AwsWrangler in
/-- C10 witness: a query polled as RUNNING once and then SUCCEEDED
reaches a final state, found at the first SUCCEEDED poll. -/
theorem c10_wait_query_outcomes_witness :
    ∃ k, ((fun i => if i = 0 then
        (⟨"RUNNING", none⟩ : Athena.QueryExecutionStatus)
      else ⟨"SUCCEEDED", none⟩) k).state ∈ Athena.final_states := by
  obtain ⟨k, h1, _⟩ := c10_wait_query_outcomes
    (fun i => if i = 0 then ⟨"RUNNING", none⟩ else ⟨"SUCCEEDED", none⟩) 3
    (.returned ⟨"SUCCEEDED", none⟩) (by decide)
  exact ⟨k, h1⟩

namespace AwsWrangler

/-- One step of the quote-parity transition. -/
theorem parAfter_cons (quote : Byte) (par : Bool) (b : Byte) (l : List Byte) :
    Pandas.parAfter quote par (b :: l) =
      Pandas.parAfter quote (if b = quote then !par else par) l := rfl

/-- The quote-parity transition across an appended buffer. -/
theorem parAfter_append (quote : Byte) (par : Bool) (a b : List Byte) :
    Pandas.parAfter quote par (a ++ b) =
      Pandas.parAfter quote (Pandas.parAfter quote par a) b := by
  simp [Pandas.parAfter, List.foldl_append]

/-- The quote-parity transition is the exclusive or of the starting
parity with the parity of the quote count. -/
theorem parAfter_eq (quote : Byte) :
    ∀ (l : List Byte) (par : Bool),
      Pandas.parAfter quote par l =
        xor par (decide (Pandas.quoteCount quote l % 2 = 1)) := by
  intro l
  induction l with
  | nil =>
      intro par
      have h0 : Pandas.quoteCount quote [] = 0 := rfl
      rw [h0]
      cases par <;> rfl
  | cons b rest ih =>
      intro par
      rw [parAfter_cons]
      by_cases hb : b = quote
      · have hq : Pandas.quoteCount quote (b :: rest) =
            Pandas.quoteCount quote rest + 1 := by
          simp [Pandas.quoteCount, List.filter_cons, hb]
        have hdec : decide ((Pandas.quoteCount quote rest + 1) % 2 = 1) =
            !decide (Pandas.quoteCount quote rest % 2 = 1) := by
          cases hd : decide (Pandas.quoteCount quote rest % 2 = 1) with
          | true =>
              have hx := of_decide_eq_true hd
              exact decide_eq_false (by omega)
          | false =>
              have hx := of_decide_eq_false hd
              exact decide_eq_true (by omega)
        rw [if_pos hb, ih (!par), hq, hdec]
        generalize decide (Pandas.quoteCount quote rest % 2 = 1) = d
        cases par <;> cases d <;> rfl
      · have hq : Pandas.quoteCount quote (b :: rest) =
            Pandas.quoteCount quote rest := by
          simp [Pandas.quoteCount, List.filter_cons, hb]
        rw [if_neg hb, ih par, hq]

/-- A buffer holding an even number of quote bytes leaves the parity
unchanged. -/
theorem parAfter_of_even (quote : Byte) (l : List Byte) (par : Bool)
    (h : Pandas.quoteCount quote l % 2 = 0) :
    Pandas.parAfter quote par l = par := by
  rw [parAfter_eq]
  have hd : decide (Pandas.quoteCount quote l % 2 = 1) = false := by
    simp
    omega
  rw [hd]
  cases par <;> rfl

/-- Splitting into rows distributes over a cut placed right after a
terminator byte whose preceding quote parity is even. -/
theorem splitRowsAux_append (quote term : Byte) (hqt : quote ≠ term) :
    ∀ (a0 b acc : List Byte) (par : Bool),
      Pandas.parAfter quote par a0 = false →
      Pandas.splitRowsAux quote term ((a0 ++ [term]) ++ b) par acc =
        Pandas.splitRowsAux quote term (a0 ++ [term]) par acc ++
          Pandas.splitRowsAux quote term b false [] := by
  intro a0
  induction a0 with
  | nil =>
      intro b acc par hpar
      have hp : par = false := hpar
      subst hp
      simp only [List.nil_append, List.cons_append]
      rw [Pandas.splitRowsAux, if_pos ⟨rfl, rfl⟩]
      rw [Pandas.splitRowsAux, if_pos ⟨rfl, rfl⟩]
      rw [Pandas.splitRowsAux]
      simp
  | cons x a0' ih =>
      intro b acc par hpar
      rw [parAfter_cons] at hpar
      simp only [List.cons_append]
      by_cases h1 : x = term ∧ par = false
      · have hxq : ¬(x = quote) := fun hx => hqt (hx.symm.trans h1.1)
        rw [if_neg hxq] at hpar
        rw [Pandas.splitRowsAux, if_pos h1]
        rw [Pandas.splitRowsAux, if_pos h1]
        rw [List.cons_append]
        rw [ih b [] par hpar]
      · by_cases h2 : x = quote
        · rw [if_pos h2] at hpar
          rw [Pandas.splitRowsAux, if_neg h1, if_pos h2]
          rw [Pandas.splitRowsAux, if_neg h1, if_pos h2]
          exact ih b (x :: acc) (!par) hpar
        · rw [if_neg h2] at hpar
          rw [Pandas.splitRowsAux, if_neg h1, if_neg h2]
          rw [Pandas.splitRowsAux, if_neg h1, if_neg h2]
          exact ih b (x :: acc) par hpar

/-- Reconstruction of the read path over an abstract resolver obeying
the boundary contract: a successful chunked read concatenates back to
the source bytes, and splitting the chunks into rows concatenates back
to the rows of the source. -/
theorem chunkedRead_spec (resolver : List Byte → Option Nat)
    (quote term : Byte) (hqt : quote ≠ term)
    (hres : ∀ w i, resolver w = some i →
        i < w.length ∧ w.getD i 0 = term ∧
        Pandas.quoteCount quote (w.take i) % 2 = 0) :
    ∀ fuel budget body chunks,
      Pandas.chunkedRead resolver fuel body budget = some chunks →
      chunks.flatten = body ∧
      (chunks.map (Pandas.splitRows quote term)).flatten =
        Pandas.splitRows quote term body := by
  intro fuel
  induction fuel with
  | zero =>
      intro budget body chunks h
      rw [Pandas.chunkedRead] at h
      exact Option.noConfusion h
  | succ m ih =>
      intro budget body chunks h
      rw [Pandas.chunkedRead] at h
      by_cases hfit : body.length ≤ budget
      · rw [if_pos hfit] at h
        obtain rfl := (Option.some.inj h).symm
        constructor <;> simp
      · rw [if_neg hfit] at h
        cases hr : resolver (body.take budget) with
        | none =>
            rw [hr] at h
            exact ih (budget * 2) body chunks h
        | some idx =>
            rw [hr] at h
            have h3 : (Pandas.chunkedRead resolver m (body.drop (idx + 1))
                budget).map
                  (fun cs => (body.take budget).take (idx + 1) :: cs) =
                some chunks := h
            clear h
            cases hc : Pandas.chunkedRead resolver m (body.drop (idx + 1))
                budget with
            | none =>
                rw [hc] at h3
                have h4 : (none : Option (List (List Byte))) = some chunks := h3
                exact Option.noConfusion h4
            | some cs =>
                rw [hc] at h3
                have h4 : some ((body.take budget).take (idx + 1) :: cs) =
                    some chunks := h3
                obtain rfl := (Option.some.inj h4).symm
                obtain ⟨hlt, hterm, hqc⟩ := hres _ _ hr
                obtain ⟨ih1, ih2⟩ := ih budget (body.drop (idx + 1)) cs hc
                have hlt2 : idx < body.length := by
                  rw [List.length_take] at hlt
                  omega
                have hidx_budget : idx + 1 ≤ budget := by
                  rw [List.length_take] at hlt
                  omega
                have hchunk : (body.take budget).take (idx + 1) =
                    body.take (idx + 1) := by
                  rw [List.take_take]
                  congr 1
                  omega
                have hterm2 : body[idx] = term := by
                  have hgl : (body.take budget)[idx] = term := by
                    rw [← List.getD_eq_getElem (body.take budget) 0 hlt]
                    exact hterm
                  rw [List.getElem_take] at hgl
                  exact hgl
                have htake : body.take idx ++ [term] = body.take (idx + 1) := by
                  rw [List.take_succ, List.getElem?_eq_getElem hlt2, hterm2]
                  rfl
                have hqc2 : Pandas.quoteCount quote (body.take idx) % 2 = 0 := by
                  have heq : (body.take budget).take idx = body.take idx := by
                    rw [List.take_take]
                    congr 1
                    omega
                  rw [heq] at hqc
                  exact hqc
                have hrows : Pandas.splitRows quote term body =
                    Pandas.splitRows quote term (body.take (idx + 1)) ++
                      Pandas.splitRows quote term (body.drop (idx + 1)) := by
                  have hx := splitRowsAux_append quote term hqt (body.take idx)
                    (body.drop (idx + 1)) [] false
                    (parAfter_of_even quote (body.take idx) false hqc2)
                  rw [htake] at hx
                  rw [List.take_append_drop] at hx
                  exact hx
                constructor
                · rw [List.flatten, hchunk, ih1]
                  exact List.take_append_drop (idx + 1) body
                · rw [List.map_cons, List.flatten, hchunk, ih2, hrows]

end AwsWrangler

open AwsWrangler in
/-- C7.  Reconstruction round trip of the read path: a successful run
of the reader over the MINIMAL-discipline BoundaryResolver yields
chunks that concatenate back exactly to the source bytes, whose row
sequences concatenate back exactly to the rows of the source, and whose
decoded batches concatenate back exactly to the decoded source, with no
row duplicated or dropped. -/
theorem c7_read_reconstruction (sep quote term : Byte) (hqt : quote ≠ term)
    (fuel budget : Nat) (body : List Byte) (chunks : List (List Byte))
    (h : Pandas.readObject sep quote term fuel body budget = some chunks) :
    chunks.flatten = body ∧
    (chunks.map (Pandas.splitRows quote term)).flatten =
      Pandas.splitRows quote term body ∧
    (chunks.map (Pandas.decodeBatch sep quote term)).flatten =
      Pandas.decodeBatch sep quote term body := by
  have hres : ∀ w i,
      Pandas.find_terminator w sep .QUOTE_MINIMAL quote term = some i →
      i < w.length ∧ w.getD i 0 = term ∧
      Pandas.quoteCount quote (w.take i) % 2 = 0 := by
    intro w i hw
    obtain ⟨h1, h2, h3, _⟩ := findMinimalLoop_some w quote term w.length i hw
    exact ⟨h1, h2, h3⟩
  obtain ⟨h1, h2⟩ := chunkedRead_spec _ quote term hqt hres fuel budget body
    chunks h
  refine ⟨h1, h2, ?_⟩
  show (chunks.map (fun c => (Pandas.splitRows quote term c).map
      (Pandas.parseRecord sep quote term))).flatten =
    (Pandas.splitRows quote term body).map (Pandas.parseRecord sep quote term)
  rw [← h2, List.map_flatten, List.map_map]
  rfl

open AwsWrangler in
/-- C7 witness: reading an eight-byte object with budget four yields
three chunks that concatenate back to the object. -/
theorem c7_read_reconstruction_witness :
    ([strBytes "ab\n", strBytes "cd\n", strBytes "ef"] :
      List (List Byte)).flatten = strBytes "ab\ncd\nef" :=
  (c7_read_reconstruction 44 34 10 (by decide) 20 4 (strBytes "ab\ncd\nef")
    [strBytes "ab\n", strBytes "cd\n", strBytes "ef"] (by decide)).1
